import Mathlib

/-
  Verification development for the local-voice push-to-talk capture pipeline.

  The definitions below are a shallow embedding of the three core modules:
    * src/src/audio/recorder.py      (AudioRecorder)
    * src/src/hotkey/manager.py      (HotkeyManager / HotkeyConfig)
    * src/src/injection/text_injector.py (TextInjector)

  Sample values are modelled as rationals; OS-level effects (device queries,
  stream opening, clipboard reads/writes, keystroke synthesis) are modelled by
  explicit environment records carrying the outcome of each external call.
-/

namespace LocalVoice

/-! ## Audio recorder (src/src/audio/recorder.py) -/

/-- RecorderState enum from recorder.py. -/
inductive RecorderState where
  | IDLE
  | RECORDING
  | STOPPING
deriving DecidableEq, Repr

/-- AudioConfig dataclass from recorder.py (dtype kept as a plain string). -/
structure AudioConfig where
  sample_rate : ℕ
  channels : ℕ
  dtype : String
  block_size : ℕ
  silence_threshold : ℚ
  silence_duration : ℚ
deriving DecidableEq, Repr

/-- Mutable state of an AudioRecorder instance.  Audio chunks are lists of
rational samples (one chunk per stream callback); `stream_open` models whether
`self._stream` currently holds a live stream. -/
structure RecState where
  state : RecorderState
  audio_buffer : List (List ℚ)
  voice_detected : Bool
  silence_start : Option ℚ
  max_abs_level : ℚ
  active_sample_rate : ℕ
  stream_open : Bool
  input_device_id : Option ℕ
deriving DecidableEq, Repr

/-- Outcome of every OS / sounddevice call made by `start_recording`:
`default_device` is `sd.default.device[0]` (none when the lookup raises or no
device is set), `device_query_ok` is whether `sd.query_devices` succeeds,
`device_default_samplerate` its reported default rate, `check_ok r` whether
`sd.check_input_settings` accepts rate `r`, and `open_ok` whether constructing
and starting the `InputStream` succeeds. -/
structure AudioEnv where
  default_device : Option ℕ
  device_query_ok : Bool
  device_default_samplerate : ℕ
  check_ok : ℕ → Bool
  open_ok : Bool

/-- External calls performed by `start_recording`, recorded in order. -/
inductive RecAction where
  | resolve_device
  | probe (rate : ℕ)
  | open_stream (rate : ℕ)
deriving DecidableEq, Repr

/-- Python's `round` (round half to even) on a rational number. -/
def round_half_even (q : ℚ) : ℤ :=
  let f := ⌊q⌋
  if q - f < 1/2 then f
  else if q - f > 1/2 then f + 1
  else if f % 2 = 0 then f else f + 1

/-- np.linspace(a, b, num): `num` evenly spaced points from `a` to `b`
inclusive (a single point is `a`; zero points is the empty list). -/
def linspace (a b : ℚ) (num : ℕ) : List ℚ :=
  if num ≤ 1 then List.replicate num a
  else (List.range num).map (fun (i : ℕ) => a + ((b - a) * (i : ℚ)) / ((num : ℚ) - 1))

/-- np.interp(x, xp, fp) where xp is the index range 0, 1, ..., fp.length-1:
clamped linear interpolation of the sample list `fp` at position `x`. -/
def interp_at (fp : List ℚ) (x : ℚ) : ℚ :=
  if x ≤ 0 then fp.getD 0 0
  else if ((fp.length : ℚ) - 1) ≤ x then fp.getD (fp.length - 1) 0
  else
    let i := (⌊x⌋).toNat
    fp.getD i 0 + (x - (i : ℚ)) * (fp.getD (i + 1) 0 - fp.getD i 0)

/-- AudioRecorder._resample_audio: audio is a list of frames, each frame a list
of per-channel samples.  For `N ≥ 2` input frames it produces
`max(1, round(N * target/source))` output frames, linearly interpolating each
channel at evenly spaced positions over `[0, N-1]`. -/
def resample_audio (audio : List (List ℚ)) (source_rate target_rate : ℕ) :
    List (List ℚ) :=
  if source_rate = target_rate then audio
  else
    let in_samples := audio.length
    if in_samples < 2 then audio
    else
      let out_samples : ℕ :=
        Nat.max 1 (round_half_even ((in_samples : ℚ) *
          ((target_rate : ℚ) / (source_rate : ℚ)))).toNat
      let x_new := linspace 0 ((in_samples : ℚ) - 1) out_samples
      let channels := (audio.headD []).length
      x_new.map (fun x =>
        (List.range channels).map (fun ch =>
          interp_at (audio.map (fun row => row.getD ch 0)) x))

/-- Whether a frame's RMS exceeds the silence threshold.  This is the exact
rational characterisation of `sqrt(mean(chunk**2)) > threshold`: for a
non-negative threshold it holds iff `threshold^2 * n < sum of squares`;
a negative threshold is always exceeded; an empty chunk (NaN RMS in numpy)
compares false. -/
def frame_rms_exceeds (thr : ℚ) (chunk : List ℚ) : Bool :=
  if chunk.length = 0 then false
  else if thr < 0 then true
  else decide (thr * thr * (chunk.length : ℚ) < (chunk.map (fun x => x * x)).sum)

/-- AudioRecorder._detect_voice_activity, acting on the `_voice_detected` flag.
Returns the new flag value and the list of `onVoiceActivity` callback values
fired (the VAD callback is modelled as always registered).  The code also
writes `_silence_start := None` on a voiced frame; that field is never read,
so it is tracked only in `RecState`. -/
def detect_voice_activity (thr : ℚ) (voice_detected : Bool) (chunk : List ℚ) :
    Bool × List Bool :=
  if frame_rms_exceeds thr chunk then (true, [true])
  else if voice_detected then (voice_detected, [false])
  else (voice_detected, [])

/-- Feed a sequence of audio chunks through `detect_voice_activity`, threading
the `_voice_detected` flag and concatenating the fired callback values. -/
def vad_run (thr : ℚ) (v : Bool) : List (List ℚ) → Bool × List Bool
  | [] => (v, [])
  | c :: rest =>
    let r1 := detect_voice_activity thr v c
    let r2 := vad_run thr r1.1 rest
    (r2.1, r1.2 ++ r2.2)

/-- Callback values fired while processing `frames` from a freshly reset
recorder (voice flag cleared). -/
def vad_emits (thr : ℚ) (frames : List (List ℚ)) : List Bool :=
  (vad_run thr false frames).2

/-- AudioRecorder.clear_buffer. -/
def clear_buffer (s : RecState) : RecState :=
  { s with audio_buffer := [], voice_detected := false,
           silence_start := none, max_abs_level := 0 }

/-- AudioRecorder.get_audio_data: `None` when no chunks were captured,
otherwise the concatenation of all chunks in arrival order. -/
def get_audio_data (s : RecState) : Option (List ℚ) :=
  if s.audio_buffer = [] then none else some s.audio_buffer.flatten

/-- The candidate sample-rate list built by `start_recording`:
the configured rate, followed by the device default rate when a device was
resolved, its query succeeded, the reported rate is truthy (non-zero) and it
is not already in the list. -/
def candidate_rates (cfg : AudioConfig) (env : AudioEnv) : List ℕ :=
  cfg.sample_rate ::
    (match env.default_device with
     | some _ =>
       if env.device_query_ok then
         if env.device_default_samplerate ≠ 0 ∧
            env.device_default_samplerate ∉ [cfg.sample_rate] then
           [env.device_default_samplerate]
         else []
       else []
     | none => [])

/-- The rate accepted by the probe loop: the first candidate passing
`check_input_settings`, or the configured rate when every probe fails
(the loop only logs warnings, it never aborts). -/
def selected_rate (cfg : AudioConfig) (env : AudioEnv) : ℕ :=
  ((candidate_rates cfg env).find? env.check_ok).getD cfg.sample_rate

/-- Probes actually attempted: candidates up to and including the first
accepted one (the loop breaks on success). -/
def probed_rates (cfg : AudioConfig) (env : AudioEnv) : List ℕ :=
  (candidate_rates cfg env).take
    ((candidate_rates cfg env).findIdx env.check_ok + 1)

/-- Result of a `start_recording` call: final recorder state, returned
boolean, external calls performed, and the successive assignments made to
`self._state` during the call. -/
structure StartResult where
  final : RecState
  ok : Bool
  actions : List RecAction
  writes : List RecorderState
deriving DecidableEq, Repr

/-- AudioRecorder.start_recording.  Returns True immediately when already
recording.  Otherwise clears the buffer, sets state to RECORDING, resolves the
device, probes candidate rates (failed probes are only logged), opens the
stream at the selected rate; any exception from opening/starting the stream
sets the state back to IDLE and returns False. -/
def start_recording (cfg : AudioConfig) (env : AudioEnv) (s : RecState) :
    StartResult :=
  if s.state = RecorderState.RECORDING then ⟨s, true, [], []⟩
  else
    let s1 := clear_buffer s
    let s2 := { s1 with state := RecorderState.RECORDING }
    let s3 := { s2 with input_device_id := env.default_device }
    let sel := selected_rate cfg env
    let s4 := { s3 with active_sample_rate := sel }
    let acts := RecAction.resolve_device ::
      (probed_rates cfg env).map RecAction.probe ++ [RecAction.open_stream sel]
    if env.open_ok then
      ⟨{ s4 with stream_open := true }, true, acts, [RecorderState.RECORDING]⟩
    else
      ⟨{ s4 with state := RecorderState.IDLE }, false, acts,
        [RecorderState.RECORDING, RecorderState.IDLE]⟩

/-- Result of a `stop_recording` call. -/
structure StopResult where
  final : RecState
  data : Option (List (List ℚ))
  writes : List RecorderState
deriving DecidableEq, Repr

/-- AudioRecorder.stop_recording.  Returns None unless currently recording;
otherwise transitions to STOPPING, closes the stream, concatenates the
buffered chunks, transitions to IDLE, and resamples when the active rate
differs from the configured one.  The returned audio is reshaped to one
single-channel frame per sample, mirroring `reshape(-1, 1)`. -/
def stop_recording (cfg : AudioConfig) (s : RecState) : StopResult :=
  if s.state ≠ RecorderState.RECORDING then ⟨s, none, []⟩
  else
    let s1 := { s with state := RecorderState.STOPPING }
    let s2 := { s1 with stream_open := false }
    let audio := get_audio_data s2
    let s3 := { s2 with state := RecorderState.IDLE }
    match audio with
    | none => ⟨s3, none, [RecorderState.STOPPING, RecorderState.IDLE]⟩
    | some data =>
      if data.length ≠ 0 ∧ s.active_sample_rate ≠ cfg.sample_rate then
        ⟨s3, some (resample_audio (data.map (fun x => [x]))
                     s.active_sample_rate cfg.sample_rate),
          [RecorderState.STOPPING, RecorderState.IDLE]⟩
      else
        ⟨s3, some (data.map (fun x => [x])),
          [RecorderState.STOPPING, RecorderState.IDLE]⟩

/-- A freshly constructed AudioRecorder. -/
def recInit (cfg : AudioConfig) : RecState :=
  ⟨RecorderState.IDLE, [], false, none, 0, cfg.sample_rate, false, none⟩

/-- One orchestrator-level operation on the recorder. -/
inductive RecOp where
  | start (env : AudioEnv)
  | stop

/-- Run one operation, returning the new state and the `_state` assignments
it performed. -/
def rec_op (cfg : AudioConfig) (s : RecState) : RecOp → RecState × List RecorderState
  | RecOp.start env =>
    let r := start_recording cfg env s
    (r.final, r.writes)
  | RecOp.stop =>
    let r := stop_recording cfg s
    (r.final, r.writes)

/-- All `_state` assignments performed by a sequence of operations. -/
def rec_trace (cfg : AudioConfig) (s : RecState) : List RecOp → List RecorderState
  | [] => []
  | op :: rest =>
    let r := rec_op cfg s op
    r.2 ++ rec_trace cfg r.1 rest

/-- The documented state cycle Idle → Recording → Stopping → Idle. -/
def cycle_step : RecorderState → RecorderState → Bool
  | RecorderState.IDLE, RecorderState.RECORDING => true
  | RecorderState.RECORDING, RecorderState.STOPPING => true
  | RecorderState.STOPPING, RecorderState.IDLE => true
  | _, _ => false

/-- The cycle extended with the direct Recording → Idle revert performed by a
failing `start_recording`. -/
def allowed_step (a b : RecorderState) : Bool :=
  cycle_step a b || (a = RecorderState.RECORDING && b = RecorderState.IDLE)

/-- An operation whose internal state writes stay on the documented cycle:
every stop, and every start whose stream open succeeds. -/
def rec_op_ok : RecOp → Prop
  | RecOp.start env => env.open_ok = true
  | RecOp.stop => True

/-! ## Hotkey manager (src/src/hotkey/manager.py) -/

/-- pynput `Key` values used by the manager's tables (`kend` stands for
`Key.end`). -/
inductive PK where
  | caps_lock | f1 | f2 | f3 | f4 | f5 | f6 | f7 | f8 | f9 | f10 | f11 | f12
  | space | tab | enter | esc | backspace | home | kend | page_up | page_down
  | shift | shift_l | shift_r | ctrl | ctrl_l | ctrl_r
  | alt | alt_l | alt_r | cmd | cmd_l | cmd_r
deriving DecidableEq, Repr

/-- A raw key event payload: a named pynput `Key`, or a `KeyCode` carrying an
optional character. -/
inductive KeyInput where
  | named (k : PK)
  | code (c : Option Char)
deriving DecidableEq, Repr

/-- Python str.lower(), character by character. -/
def lower (s : String) : String := ⟨s.data.map Char.toLower⟩

/-- HotkeyManager.KEY_MAP. -/
def KEY_MAP (s : String) : Option PK :=
  match s with
  | "caps_lock" => some PK.caps_lock
  | "f1" => some PK.f1
  | "f2" => some PK.f2
  | "f3" => some PK.f3
  | "f4" => some PK.f4
  | "f5" => some PK.f5
  | "f6" => some PK.f6
  | "f7" => some PK.f7
  | "f8" => some PK.f8
  | "f9" => some PK.f9
  | "f10" => some PK.f10
  | "f11" => some PK.f11
  | "f12" => some PK.f12
  | "space" => some PK.space
  | "tab" => some PK.tab
  | "enter" => some PK.enter
  | "return" => some PK.enter
  | "esc" => some PK.esc
  | "escape" => some PK.esc
  | "backspace" => some PK.backspace
  | "home" => some PK.home
  | "end" => some PK.kend
  | "page_up" => some PK.page_up
  | "page_down" => some PK.page_down
  | _ => none

/-- HotkeyManager.MODIFIER_MAP. -/
def MODIFIER_MAP (s : String) : Option PK :=
  match s with
  | "shift" => some PK.shift
  | "ctrl" => some PK.ctrl
  | "alt" => some PK.alt
  | "cmd" => some PK.cmd
  | "meta" => some PK.cmd
  | _ => none

/-- HotkeyManager.REVERSE_MODIFIER_MAP. -/
def REVERSE_MODIFIER_MAP (k : PK) : Option String :=
  match k with
  | PK.shift => some "shift"
  | PK.shift_l => some "shift"
  | PK.shift_r => some "shift"
  | PK.ctrl => some "ctrl"
  | PK.ctrl_l => some "ctrl"
  | PK.ctrl_r => some "ctrl"
  | PK.alt => some "alt"
  | PK.alt_l => some "alt"
  | PK.alt_r => some "alt"
  | PK.cmd => some "cmd"
  | PK.cmd_l => some "cmd"
  | PK.cmd_r => some "cmd"
  | _ => none

/-- HotkeyConfig dataclass (mode is the raw string "hold" / "toggle"). -/
structure HotkeyConfig where
  hotkey : String
  mode : String
  modifiers : Finset String
  primary_key : String
deriving DecidableEq

/-- Mutable state of a HotkeyManager: the `_key_pressed` engaged flag and the
`_modifiers_pressed` set of held modifier names. -/
structure HKState where
  key_pressed : Bool
  modifiers_pressed : Finset String
deriving DecidableEq

/-- Semantic events delivered through the registered callbacks. -/
inductive HKEvent where
  | start
  | stop
  | toggle
deriving DecidableEq, Repr

/-- HotkeyManager._get_key. -/
def get_key (cfg : HotkeyConfig) : Option PK := KEY_MAP (lower cfg.primary_key)

/-- HotkeyManager._is_primary_a_modifier (raw dict-membership test, no
lowercasing). -/
def is_primary_a_modifier (cfg : HotkeyConfig) : Bool :=
  (MODIFIER_MAP cfg.primary_key).isSome

/-- HotkeyManager._check_modifiers_match against a given live modifier set. -/
def check_modifiers_match (cfg : HotkeyConfig) (pressed : Finset String) : Bool :=
  if is_primary_a_modifier cfg = false then
    if cfg.modifiers = ∅ then decide (pressed = ∅)
    else decide (cfg.modifiers ⊆ pressed) && decide (pressed.card = cfg.modifiers.card)
  else decide (cfg.modifiers ⊆ pressed)

/-- HotkeyManager._all_hotkey_modifiers_pressed. -/
def all_hotkey_modifiers_pressed (cfg : HotkeyConfig) (pressed : Finset String) :
    Bool :=
  let all_mods :=
    if is_primary_a_modifier cfg then insert cfg.primary_key cfg.modifiers
    else cfg.modifiers
  decide (all_mods = pressed)

/-- The `is_primary` computation shared by `_on_press` and `_on_release`:
named-key lookup of the configured primary first (a named event key compares
against it; `None` compares unequal), with a raw-character case-insensitive
comparison for `KeyCode` events carrying a character. -/
def key_is_primary (cfg : HotkeyConfig) (key : KeyInput) : Bool :=
  match key with
  | KeyInput.named k => get_key cfg == some k
  | KeyInput.code c =>
    match c with
    | some ch => lower ⟨[ch]⟩ == lower cfg.primary_key
    | none => false

/-- Whether the event key is a modifier key (`_is_modifier_key`): only named
keys present in REVERSE_MODIFIER_MAP. -/
def is_modifier_input (key : KeyInput) : Bool :=
  match key with
  | KeyInput.named k => (REVERSE_MODIFIER_MAP k).isSome
  | KeyInput.code _ => false

/-- The non-modifier-key tail of `_on_press` (from `primary = self._get_key...`
onwards): fires Start (hold) or Toggle (toggle) on a fresh matching press. -/
def on_press_primary (cfg : HotkeyConfig) (s : HKState) (key : KeyInput) :
    HKState × List HKEvent :=
  if key_is_primary cfg key && check_modifiers_match cfg s.modifiers_pressed then
    if cfg.mode = "hold" then
      if s.key_pressed = false then
        (⟨true, s.modifiers_pressed⟩, [HKEvent.start])
      else (s, [])
    else if cfg.mode = "toggle" then
      if s.key_pressed = false then
        (⟨true, s.modifiers_pressed⟩, [HKEvent.toggle])
      else (s, [])
    else (s, [])
  else (s, [])

/-- HotkeyManager._on_press. -/
def on_press (cfg : HotkeyConfig) (s : HKState) (key : KeyInput) :
    HKState × List HKEvent :=
  match key with
  | KeyInput.named k =>
    match REVERSE_MODIFIER_MAP k with
    | some mod_name =>
      let pressed := insert mod_name s.modifiers_pressed
      if is_primary_a_modifier cfg then
        if all_hotkey_modifiers_pressed cfg pressed &&
           check_modifiers_match cfg pressed then
          if cfg.mode = "hold" then
            if s.key_pressed = false then (⟨true, pressed⟩, [HKEvent.start])
            else (⟨s.key_pressed, pressed⟩, [])
          else if cfg.mode = "toggle" then
            if s.key_pressed = false then (⟨true, pressed⟩, [HKEvent.toggle])
            else (⟨s.key_pressed, pressed⟩, [])
          else (⟨s.key_pressed, pressed⟩, [])
        else (⟨s.key_pressed, pressed⟩, [])
      else (⟨s.key_pressed, pressed⟩, [])
    | none => on_press_primary cfg s key
  | KeyInput.code _ => on_press_primary cfg s key

/-- The non-modifier-key tail of `_on_release`: fires Stop on a matching
release while engaged (hold), or silently clears the engaged flag (toggle). -/
def on_release_primary (cfg : HotkeyConfig) (s : HKState) (key : KeyInput) :
    HKState × List HKEvent :=
  if key_is_primary cfg key && check_modifiers_match cfg s.modifiers_pressed then
    if cfg.mode = "hold" then
      if s.key_pressed then (⟨false, s.modifiers_pressed⟩, [HKEvent.stop])
      else (s, [])
    else if cfg.mode = "toggle" then (⟨false, s.modifiers_pressed⟩, [])
    else (s, [])
  else (s, [])

/-- HotkeyManager._on_release.  For a modifier key: when the primary is itself
a modifier and the manager is engaged with that modifier held, the engaged
flag clears (firing Stop in hold mode); the modifier is then discarded from
the live set. -/
def on_release (cfg : HotkeyConfig) (s : HKState) (key : KeyInput) :
    HKState × List HKEvent :=
  match key with
  | KeyInput.named k =>
    match REVERSE_MODIFIER_MAP k with
    | some mod_name =>
      let fire := is_primary_a_modifier cfg && s.key_pressed &&
        decide (mod_name ∈ s.modifiers_pressed)
      let kp := if fire then false else s.key_pressed
      let evs := if fire && (cfg.mode = "hold" : Bool) then [HKEvent.stop] else []
      (⟨kp, s.modifiers_pressed.erase mod_name⟩, evs)
    | none => on_release_primary cfg s key
  | KeyInput.code _ => on_release_primary cfg s key

/-- A raw key event: press or release edge plus key identity. -/
inductive KeyEvt where
  | press (k : KeyInput)
  | release (k : KeyInput)
deriving DecidableEq, Repr

/-- Dispatch one raw event to the press/release handler. -/
def hk_step (cfg : HotkeyConfig) (s : HKState) : KeyEvt → HKState × List HKEvent
  | KeyEvt.press k => on_press cfg s k
  | KeyEvt.release k => on_release cfg s k

/-- Run the manager over a sequence of raw events, concatenating all callback
events fired. -/
def hk_run (cfg : HotkeyConfig) (s : HKState) : List KeyEvt → HKState × List HKEvent
  | [] => (s, [])
  | e :: rest =>
    let r1 := hk_step cfg s e
    let r2 := hk_run cfg r1.1 rest
    (r2.1, r1.2 ++ r2.2)

/-- Modifier names whose canonical pynput key maps back to the same name
(every MODIFIER_MAP entry except the "meta" alias). -/
def canonical_mods : List String := ["shift", "ctrl", "alt", "cmd"]

/-- The pynput key generated by pressing the named modifier. -/
def mod_key (m : String) : PK := (MODIFIER_MAP m).getD PK.shift

/-- Press events for a list of modifier names, in order. -/
def press_mods (ms : List String) : List KeyEvt :=
  ms.map (fun m => KeyEvt.press (KeyInput.named (mod_key m)))

/-- Release events for a list of modifier names, in order. -/
def release_mods (ms : List String) : List KeyEvt :=
  ms.map (fun m => KeyEvt.release (KeyInput.named (mod_key m)))

/-- One physical press of a combo: its modifiers in the given order, then the
primary key's event. -/
def combo_press (ms : List String) (pk : KeyInput) : List KeyEvt :=
  press_mods ms ++ [KeyEvt.press pk]

/-- One physical release of a combo: the primary key's release first, then the
modifiers. -/
def combo_release (ms : List String) (pk : KeyInput) : List KeyEvt :=
  KeyEvt.release pk :: release_mods ms

/-- The live modifier set while the whole combo is held. -/
def combo_full (cfg : HotkeyConfig) (ms : List String) : Finset String :=
  if is_primary_a_modifier cfg then insert cfg.primary_key ms.toFinset
  else ms.toFinset

/-- Successive erasure of a list of modifier names from a live set (the
effect of releasing them one by one). -/
def erase_list (P : Finset String) : List String → Finset String
  | [] => P
  | m :: rest => erase_list (P.erase m) rest

/-- The live modifier set immediately after recording the event (`_on_press`
adds a modifier key's name before evaluating the match). -/
def live_after (key : KeyInput) (pressed : Finset String) : Finset String :=
  match key with
  | KeyInput.named k =>
    match REVERSE_MODIFIER_MAP k with
    | some m => insert m pressed
    | none => pressed
  | KeyInput.code _ => pressed

/-- Whether a press event fires a fresh Start/Toggle from a disengaged state
with live modifier set `pressed` — the code's realisation of "the combo
matches" on a press edge. -/
def press_matches (cfg : HotkeyConfig) (key : KeyInput) (pressed : Finset String) :
    Bool :=
  decide ((on_press cfg ⟨false, pressed⟩ key).2 ≠ [])

/-- The matching rule exactly as the specification words it: when the primary
key is itself a modifier name, the live set must equal modifiers plus the
primary; otherwise the live set must equal the modifiers and the event's key
must equal the primary (named lookup with raw-character fallback). -/
def spec_match_rule (cfg : HotkeyConfig) (key : KeyInput) (pressed : Finset String) :
    Bool :=
  if is_primary_a_modifier cfg then
    decide (live_after key pressed = insert cfg.primary_key cfg.modifiers)
  else
    decide (live_after key pressed = cfg.modifiers) && key_is_primary cfg key

/-! ## Text injector (src/src/injection/text_injector.py) -/

/-- InjectionMethod enum. -/
inductive InjectionMethod where
  | clipboard
  | keyboard
  | clipboard_keyboard_fallback
deriving DecidableEq, Repr

/-- InjectionConfig dataclass. -/
structure InjectionConfig where
  method : InjectionMethod
  typing_delay : ℚ
  add_trailing_space : Bool
  preserve_clipboard : Bool
deriving DecidableEq, Repr

/-- Clipboard-visible state of a TextInjector: the OS clipboard content and
the injector's `_clipboard_backup` field. -/
structure ClipState where
  clipboard : String
  clipboard_backup : Option String
deriving DecidableEq, Repr

/-- Outcome of every OS-level call made during one `inject` execution:
whether `pyperclip.paste()` raises while snapshotting, whether
`pyperclip.copy(text)` raises, whether synthesizing the paste shortcut
raises, whether `pyperclip.copy(backup)` raises while restoring, and whether
the per-character keystroke synthesis raises. -/
structure InjEnv where
  paste_raises : Bool
  copy_text_raises : Bool
  paste_key_raises : Bool
  restore_copy_raises : Bool
  keyboard_raises : Bool
deriving DecidableEq, Repr

/-- TextInjector._backup_clipboard: with preservation on, snapshot the
clipboard into the backup field; a raising `paste()` leaves the backup `None`
(the boolean return value is ignored by the caller). -/
def backup_clipboard (cfg : InjectionConfig) (env : InjEnv) (w : ClipState) :
    ClipState :=
  if cfg.preserve_clipboard = false then w
  else if env.paste_raises then { w with clipboard_backup := none }
  else { w with clipboard_backup := some w.clipboard }

/-- TextInjector._restore_clipboard: with preservation on and a snapshot
present, copy the snapshot back (a raising copy is only printed); the backup
field is cleared on both paths (`finally`). -/
def restore_clipboard (cfg : InjectionConfig) (env : InjEnv) (w : ClipState) :
    ClipState :=
  if cfg.preserve_clipboard = false then w
  else
    match w.clipboard_backup with
    | none => w
    | some b =>
      if env.restore_copy_raises then { w with clipboard_backup := none }
      else ⟨b, none⟩

/-- TextInjector.inject_clipboard: snapshot, write the text to the clipboard,
synthesize the paste shortcut, then restore.  Any exception inside the `try`
block is caught and yields False; in particular a raising paste shortcut
skips the restore step, leaving the injected text on the clipboard. -/
def inject_clipboard (cfg : InjectionConfig) (env : InjEnv) (w : ClipState)
    (text : String) : ClipState × Bool :=
  let w1 := backup_clipboard cfg env w
  if env.copy_text_raises then (w1, false)
  else
    let w2 := { w1 with clipboard := text }
    if env.paste_key_raises then (w2, false)
    else (restore_clipboard cfg env w2, true)

/-- TextInjector.inject_keyboard: per-character keystroke synthesis; never
touches the clipboard; a raising OS call yields False. -/
def inject_keyboard (env : InjEnv) (w : ClipState) (_text : String) :
    ClipState × Bool :=
  (w, !env.keyboard_raises)

/-- Delivery methods attempted during one `inject` call, in order. -/
inductive InjAttempt where
  | clipboard
  | keyboard
deriving DecidableEq, Repr

/-- Python `text.strip()` is falsy exactly when every character of the text
is whitespace; this models the `if not text.strip()` guard. -/
def is_blank (s : String) : Bool := s.data.all Char.isWhitespace

/-- Python `text.endswith(c)` for a single character. -/
def ends_with_char (s : String) (c : Char) : Bool := s.data.getLast? == some c

/-- TextInjector.inject: reject blank text; optionally append a trailing
space; dispatch on the configured method, falling back to the other delivery
method exactly once when the first fails.  Returns the final clipboard-visible
state, the boolean result, and the attempts made. -/
def inject (cfg : InjectionConfig) (env : InjEnv) (w : ClipState)
    (text : String) : ClipState × Bool × List InjAttempt :=
  if is_blank text then (w, false, [])
  else
    let t :=
      if cfg.add_trailing_space &&
         !(ends_with_char text ' ') && !(ends_with_char text '\n') then text ++ " "
      else text
    match cfg.method with
    | InjectionMethod.clipboard =>
      let r := inject_clipboard cfg env w t
      if r.2 then (r.1, true, [InjAttempt.clipboard])
      else
        let r2 := inject_keyboard env r.1 t
        (r2.1, r2.2, [InjAttempt.clipboard, InjAttempt.keyboard])
    | InjectionMethod.keyboard =>
      let r := inject_keyboard env w t
      if r.2 then (r.1, true, [InjAttempt.keyboard])
      else
        let r2 := inject_clipboard cfg env r.1 t
        (r2.1, r2.2, [InjAttempt.keyboard, InjAttempt.clipboard])
    | InjectionMethod.clipboard_keyboard_fallback =>
      let r := inject_clipboard cfg env w t
      if r.2 then (r.1, true, [InjAttempt.clipboard])
      else
        let r2 := inject_keyboard env r.1 t
        (r2.1, r2.2, [InjAttempt.clipboard, InjAttempt.keyboard])

/-! ## Concrete instances used by the theorems below -/

/-- A default audio configuration (16 kHz mono). -/
def cfgA : AudioConfig := ⟨16000, 1, "float32", 1024, 1/100, 3/2⟩

/-- Environment where every rate probe is rejected but the stream still
opens. -/
def envNoProbe : AudioEnv := ⟨none, false, 0, fun _ => false, true⟩

/-- Environment where the stream fails to open. -/
def envFail : AudioEnv := ⟨none, false, 0, fun _ => true, false⟩

/-- Environment where everything succeeds (device 0 at 48 kHz). -/
def envOk : AudioEnv := ⟨some 0, true, 48000, fun _ => true, true⟩

/-- A recorder that is currently recording with one buffered chunk. -/
def recA : RecState :=
  ⟨RecorderState.RECORDING, [[1/2, 1/4]], true, none, 1/2, 48000, true, some 0⟩

/-- Sixteen single-channel frames 0, 1, ..., 15. -/
def c2audio : List (List ℚ) := (List.range 16).map (fun (i : ℕ) => [(i : ℚ)])

/-- Hold-mode combo consisting of the bare caps_lock key. -/
def cfgHold : HotkeyConfig := ⟨"caps_lock", "hold", ∅, "caps_lock"⟩

/-- Toggle-mode combo ctrl+shift (primary key is the modifier "shift"). -/
def cfgToggle : HotkeyConfig := ⟨"ctrl+shift", "toggle", {"ctrl"}, "shift"⟩

/-- Hold-mode combo "meta", as HotkeyConfig.parse produces it: "meta" is a
modifier keyword, so it becomes the primary key with an empty modifier set. -/
def cfgMetaHold : HotkeyConfig := ⟨"meta", "hold", ∅, "meta"⟩

/-- Toggle-mode combo "meta", as HotkeyConfig.parse produces it. -/
def cfgMetaToggle : HotkeyConfig := ⟨"meta", "toggle", ∅, "meta"⟩

/-- Hold-mode combo ctrl+shift (primary key is the modifier "shift"). -/
def cfgC8 : HotkeyConfig := ⟨"ctrl+shift", "hold", {"ctrl"}, "shift"⟩

/-- Live modifier set with ctrl and shift held. -/
def setC8 : Finset String := {"ctrl", "shift"}

/-- Clipboard injection with preservation enabled. -/
def cfgInj : InjectionConfig := ⟨InjectionMethod.clipboard, 1/100, true, true⟩

/-- Environment where synthesizing the paste shortcut raises and everything
else succeeds. -/
def envPasteBoom : InjEnv := ⟨false, false, true, false, false⟩

/-- Environment where every injection-related OS call succeeds. -/
def envCalm : InjEnv := ⟨false, false, false, false, false⟩

/-- Initial clipboard state holding "orig" with no backup. -/
def wOrig : ClipState := ⟨"orig", none⟩

/-! ## General lemmas -/

lemma linspace_length (a b : ℚ) (num : ℕ) : (linspace a b num).length = num := by
  unfold linspace
  split
  · simp
  · rw [List.length_map, List.length_range]

lemma round_half_even_16_thirds :
    round_half_even (((16 : ℕ) : ℚ) * (((16000 : ℕ) : ℚ) / ((48000 : ℕ) : ℚ))) = 5 := by
  have hq : (((16 : ℕ) : ℚ) * (((16000 : ℕ) : ℚ) / ((48000 : ℕ) : ℚ))) = 16 / 3 := by
    norm_num
  have hf : ⌊(16 : ℚ) / 3⌋ = 5 := by norm_num [Int.floor_eq_iff]
  simp only [round_half_even, hq, hf]
  norm_num

lemma c2audio_length : c2audio.length = 16 := by
  simp [c2audio]

lemma frame_one_voiced : frame_rms_exceeds (1/100) [1] = true := by
  unfold frame_rms_exceeds
  norm_num

lemma vad_run_count (thr : ℚ) (v : Bool) (frames : List (List ℚ)) :
    ((vad_run thr v frames).2).count true =
      frames.countP (fun c => frame_rms_exceeds thr c) := by
  induction frames generalizing v with
  | nil => simp [vad_run]
  | cons c rest ih =>
    unfold vad_run detect_voice_activity
    by_cases h : frame_rms_exceeds thr c = true
    · simp [h, List.countP_cons, ih]
    · rw [Bool.not_eq_true] at h
      by_cases hv : v = true
      · simp [h, hv, List.countP_cons, ih]
      · rw [Bool.not_eq_true] at hv
        simp [h, hv, List.countP_cons, ih]

lemma vad_run_head (thr : ℚ) (frames : List (List ℚ)) :
    (vad_run thr false frames).2 = [] ∨
      ((vad_run thr false frames).2).head? = some true := by
  induction frames with
  | nil => left; rfl
  | cons c rest ih =>
    unfold vad_run detect_voice_activity
    by_cases h : frame_rms_exceeds thr c = true
    · right; simp [h]
    · rw [Bool.not_eq_true] at h
      simpa [h] using ih

/-! ## Claim theorems -/

/-- C1 counterexample: with preserveClipboard=true, non-empty text, and a
paste shortcut that raises, `inject()` leaves the injected text on the
clipboard instead of restoring the snapshot — the restore does not run on the
exception exit path, so the claim as stated is false. -/
theorem C1_counterexample :
    ((inject cfgInj envPasteBoom wOrig "hello").1).clipboard ≠ wOrig.clipboard := by
  decide

/-- C1 (amended): with preserveClipboard=true the clipboard content after
`inject()` equals the content before it whenever none of the clipboard
operations raise (snapshot read, text copy, paste keystroke, restore copy);
when the paste step raises, the restore is skipped and the clipboard is left
holding the injected text. -/
theorem C1_theorem (cfg : InjectionConfig) (env : InjEnv) (w : ClipState)
    (text : String)
    (hp : cfg.preserve_clipboard = true)
    (h1 : env.paste_raises = false) (h2 : env.copy_text_raises = false)
    (h3 : env.paste_key_raises = false) (h4 : env.restore_copy_raises = false) :
    ((inject cfg env w text).1).clipboard = w.clipboard := by
  unfold inject
  split
  · rfl
  · unfold inject_clipboard inject_keyboard backup_clipboard restore_clipboard
    cases hm : cfg.method <;> cases hk : env.keyboard_raises <;>
      simp [hp, h1, h2, h3, h4, hk]

/-- C1 witness: a calm environment restores the clipboard. -/
theorem C1_witness :
    ((inject cfgInj envCalm wOrig "hello").1).clipboard = wOrig.clipboard :=
  C1_theorem cfgInj envCalm wOrig "hello" rfl rfl rfl rfl rfl

/-- C2 counterexample: resampling 16 frames from 48000 Hz to 16000 Hz yields
5 output frames (round(16/3) = 5), not the 6 the claim states. -/
theorem C2_counterexample :
    (resample_audio c2audio 48000 16000).length ≠ 6 := by
  unfold resample_audio
  rw [if_neg (by decide), if_neg (by rw [c2audio_length]; decide)]
  simp only [List.length_map, linspace_length, c2audio_length,
    round_half_even_16_thirds]
  decide

/-- C2 (amended): for a buffer of N ≥ 2 frames resampled between distinct
rates, the output has exactly max(1, round(N * target/source)) frames, where
round is Python's round-half-to-even; in particular 16 frames from 48000 Hz
to 16000 Hz yield round(16/3) = 5 frames, not 6. -/
theorem C2_theorem (audio : List (List ℚ)) (s t : ℕ) (hs : s ≠ t)
    (hn : 2 ≤ audio.length) :
    (resample_audio audio s t).length =
      Nat.max 1 (round_half_even ((audio.length : ℚ) *
        ((t : ℚ) / (s : ℚ)))).toNat := by
  unfold resample_audio
  rw [if_neg hs, if_neg (by omega)]
  simp [linspace_length]

/-- C2 witness: the concrete 16-frame, 48 kHz → 16 kHz instance. -/
theorem C2_witness : (resample_audio c2audio 48000 16000).length = 5 :=
  (C2_theorem c2audio 48000 16000 (by decide)
      (by rw [c2audio_length]; decide)).trans
    (by rw [c2audio_length, round_half_even_16_thirds]; decide)

/-- C3 counterexample: two consecutive voiced frames make the VAD fire
onVoiceActivity(true) twice — once per voiced frame of the single continuous
voiced segment — so "exactly once / at most once per segment" is false. -/
theorem C3_counterexample :
    vad_emits (1/100) [[1], [1]] = [true, true] ∧
      ([true, true].count true ≠ 1) := by
  constructor
  · simp only [vad_emits, vad_run, detect_voice_activity, frame_one_voiced]
    simp
  · decide

/-- C3 (amended): starting from a reset recorder, onVoiceActivity(true) fires
once per frame whose RMS exceeds the threshold (so on the first voiced frame,
but also on every later voiced frame), and onVoiceActivity(false) never fires
before a preceding true: the first fired value, if any, is true. -/
theorem C3_theorem (thr : ℚ) (frames : List (List ℚ)) :
    (vad_emits thr frames).count true =
      frames.countP (fun c => frame_rms_exceeds thr c)
    ∧ (vad_emits thr frames = [] ∨
        (vad_emits thr frames).head? = some true) :=
  ⟨vad_run_count thr false frames, vad_run_head thr frames⟩

/-- C9: with the plain Clipboard method, a failing clipboard injection is
followed by exactly one keyboard attempt (and symmetrically for the plain
Keyboard method), and the call returns false exactly when both delivery
methods fail. -/
theorem C9_theorem (cfg : InjectionConfig) (env : InjEnv) (w : ClipState)
    (text : String) (ht : is_blank text = false)
    (hm : cfg.method = InjectionMethod.clipboard ∨
          cfg.method = InjectionMethod.keyboard) :
    ((inject cfg env w text).2.1 =
       (!env.copy_text_raises && !env.paste_key_raises || !env.keyboard_raises))
    ∧ (cfg.method = InjectionMethod.clipboard →
        (inject cfg env w text).2.2 =
          if !env.copy_text_raises && !env.paste_key_raises then
            [InjAttempt.clipboard]
          else [InjAttempt.clipboard, InjAttempt.keyboard])
    ∧ (cfg.method = InjectionMethod.keyboard →
        (inject cfg env w text).2.2 =
          if !env.keyboard_raises then [InjAttempt.keyboard]
          else [InjAttempt.keyboard, InjAttempt.clipboard]) := by
  unfold inject inject_clipboard inject_keyboard
  rcases hm with hm | hm <;>
    rw [hm] <;>
    cases h1 : env.copy_text_raises <;>
    cases h2 : env.paste_key_raises <;>
    cases h3 : env.keyboard_raises <;>
    simp [ht, h1, h2, h3]

/-- C9 witness: clipboard method in a calm environment. -/
theorem C9_witness :
    ((inject cfgInj envCalm wOrig "hi").2.1 =
       (!envCalm.copy_text_raises && !envCalm.paste_key_raises ||
        !envCalm.keyboard_raises))
    ∧ (cfgInj.method = InjectionMethod.clipboard →
        (inject cfgInj envCalm wOrig "hi").2.2 =
          if !envCalm.copy_text_raises && !envCalm.paste_key_raises then
            [InjAttempt.clipboard]
          else [InjAttempt.clipboard, InjAttempt.keyboard])
    ∧ (cfgInj.method = InjectionMethod.keyboard →
        (inject cfgInj envCalm wOrig "hi").2.2 =
          if !envCalm.keyboard_raises then [InjAttempt.keyboard]
          else [InjAttempt.keyboard, InjAttempt.clipboard]) :=
  C9_theorem cfgInj envCalm wOrig "hi" (by decide) (Or.inl rfl)

/-- C10: calling start_recording while already Recording returns true
immediately: the state is unchanged (buffer intact, state still Recording),
no external call is made (no device resolution, no probe, no stream open),
and no state assignment happens. -/
theorem C10_theorem (cfg : AudioConfig) (env : AudioEnv) (s : RecState)
    (h : s.state = RecorderState.RECORDING) :
    start_recording cfg env s = ⟨s, true, [], []⟩ := by
  unfold start_recording
  rw [if_pos h]

/-- C10 witness: a concrete recording-state recorder. -/
lemma selected_rate_of_all_fail (cfg : AudioConfig) (env : AudioEnv)
    (h : ∀ r ∈ candidate_rates cfg env, env.check_ok r = false) :
    selected_rate cfg env = cfg.sample_rate := by
  unfold selected_rate
  rw [List.find?_eq_none.mpr (fun x hx => by simp [h x hx])]
  rfl

/-- C4 counterexample: an environment where every candidate rate is rejected
by the capability check but the stream still opens: start_recording returns
true, contradicting the claim that it returns false whenever no candidate
rate validates. -/
theorem C4_counterexample :
    (start_recording cfgA envNoProbe (recInit cfgA)).ok = true
    ∧ (∀ r ∈ candidate_rates cfgA envNoProbe, envNoProbe.check_ok r = false) := by
  refine ⟨rfl, fun r _ => rfl⟩

/-- C4 (amended): when not already recording, start_recording returns false
(with the state reverted to Idle) exactly when opening/starting the stream
raises, and returns true (state Recording) exactly when it opens; a failure
of every rate probe alone never causes a false return — in that case the
stream is simply opened at the configured sample rate. -/
theorem C4_theorem (cfg : AudioConfig) (env : AudioEnv) (s : RecState)
    (h : s.state ≠ RecorderState.RECORDING) :
    (start_recording cfg env s).ok = env.open_ok
    ∧ (env.open_ok = false →
        (start_recording cfg env s).final.state = RecorderState.IDLE)
    ∧ (env.open_ok = true →
        (start_recording cfg env s).final.state = RecorderState.RECORDING)
    ∧ ((∀ r ∈ candidate_rates cfg env, env.check_ok r = false) →
        (start_recording cfg env s).final.active_sample_rate = cfg.sample_rate
        ∧ RecAction.open_stream cfg.sample_rate ∈
            (start_recording cfg env s).actions) := by
  unfold start_recording
  rw [if_neg h]
  cases ho : env.open_ok
  · refine ⟨?_, ?_, ?_, ?_⟩
    · simp
    · intro _
      simp
    · intro hc
      cases hc
    · intro hall
      simp only [selected_rate_of_all_fail cfg env hall]
      refine ⟨by simp, by simp⟩
  · refine ⟨?_, ?_, ?_, ?_⟩
    · simp
    · intro hc
      cases hc
    · intro _
      simp
    · intro hall
      simp only [selected_rate_of_all_fail cfg env hall]
      refine ⟨by simp, by simp⟩

/-- C4 witness: all probes rejected, stream opens, at a non-recording
recorder. -/
theorem C4_witness :
    (start_recording cfgA envNoProbe (recInit cfgA)).ok = envNoProbe.open_ok
    ∧ (envNoProbe.open_ok = false →
        (start_recording cfgA envNoProbe (recInit cfgA)).final.state =
          RecorderState.IDLE)
    ∧ (envNoProbe.open_ok = true →
        (start_recording cfgA envNoProbe (recInit cfgA)).final.state =
          RecorderState.RECORDING)
    ∧ ((∀ r ∈ candidate_rates cfgA envNoProbe, envNoProbe.check_ok r = false) →
        (start_recording cfgA envNoProbe (recInit cfgA)).final.active_sample_rate =
          cfgA.sample_rate
        ∧ RecAction.open_stream cfgA.sample_rate ∈
            (start_recording cfgA envNoProbe (recInit cfgA)).actions) :=
  C4_theorem cfgA envNoProbe (recInit cfgA) (by decide)

lemma rec_op_stop_writes (cfg : AudioConfig) (s : RecState)
    (hrec : s.state = RecorderState.RECORDING) :
    (rec_op cfg s RecOp.stop).2 = [RecorderState.STOPPING, RecorderState.IDLE]
    ∧ (rec_op cfg s RecOp.stop).1.state = RecorderState.IDLE := by
  simp only [rec_op, stop_recording]
  rw [if_neg (by simp [hrec])]
  split
  · exact ⟨rfl, rfl⟩
  · split
    · exact ⟨rfl, rfl⟩
    · exact ⟨rfl, rfl⟩

lemma rec_trace_cons (cfg : AudioConfig) (s : RecState) (op : RecOp)
    (rest : List RecOp) :
    rec_trace cfg s (op :: rest) =
      (rec_op cfg s op).2 ++ rec_trace cfg (rec_op cfg s op).1 rest := rfl

lemma rec_trace_chain (cfg : AudioConfig) (ops : List RecOp) :
    ∀ s : RecState,
    (s.state = RecorderState.IDLE ∨ s.state = RecorderState.RECORDING) →
    List.Chain' (fun a b => allowed_step a b = true)
      (s.state :: rec_trace cfg s ops)
    ∧ ((∀ op ∈ ops, rec_op_ok op) →
        List.Chain' (fun a b => cycle_step a b = true)
          (s.state :: rec_trace cfg s ops)) := by
  induction ops with
  | nil =>
    intro s _
    exact ⟨List.chain'_singleton _, fun _ => List.chain'_singleton _⟩
  | cons op rest ih =>
    intro s hs
    cases op with
    | start env =>
      by_cases hrec : s.state = RecorderState.RECORDING
      · have he : rec_op cfg s (RecOp.start env) = (s, []) := by
          simp [rec_op, start_recording, hrec]
        rw [rec_trace_cons, he]
        obtain ⟨h1, h2⟩ := ih s hs
        exact ⟨h1, fun hall =>
          h2 (fun o ho => hall o (List.mem_cons_of_mem _ ho))⟩
      · have hidle : s.state = RecorderState.IDLE := by
          rcases hs with h1 | h1
          · exact h1
          · exact absurd h1 hrec
        cases ho : env.open_ok
        · have hw : (rec_op cfg s (RecOp.start env)).2 =
              [RecorderState.RECORDING, RecorderState.IDLE] := by
            simp [rec_op, start_recording, hrec, ho]
          have hf : (rec_op cfg s (RecOp.start env)).1.state =
              RecorderState.IDLE := by
            simp [rec_op, start_recording, hrec, ho]
          rw [rec_trace_cons, hw]
          obtain ⟨h1, _⟩ := ih (rec_op cfg s (RecOp.start env)).1 (Or.inl hf)
          rw [hf] at h1
          constructor
          · rw [hidle, List.cons_append, List.cons_append, List.nil_append,
              List.chain'_cons, List.chain'_cons]
            exact ⟨by decide, by decide, h1⟩
          · intro hall
            have := hall (RecOp.start env) (List.mem_cons_self _ _)
            rw [rec_op_ok] at this
            rw [ho] at this
            cases this
        · have hw : (rec_op cfg s (RecOp.start env)).2 =
              [RecorderState.RECORDING] := by
            simp [rec_op, start_recording, hrec, ho]
          have hf : (rec_op cfg s (RecOp.start env)).1.state =
              RecorderState.RECORDING := by
            simp [rec_op, start_recording, hrec, ho]
          rw [rec_trace_cons, hw]
          obtain ⟨h1, h2⟩ := ih (rec_op cfg s (RecOp.start env)).1 (Or.inr hf)
          rw [hf] at h1 h2
          constructor
          · rw [hidle, List.cons_append, List.nil_append, List.chain'_cons]
            exact ⟨by decide, h1⟩
          · intro hall
            rw [hidle, List.cons_append, List.nil_append, List.chain'_cons]
            exact ⟨by decide,
              h2 (fun o hop => hall o (List.mem_cons_of_mem _ hop))⟩
    | stop =>
      by_cases hrec : s.state = RecorderState.RECORDING
      · obtain ⟨hw, hf⟩ := rec_op_stop_writes cfg s hrec
        rw [rec_trace_cons, hw]
        obtain ⟨h1, h2⟩ := ih (rec_op cfg s RecOp.stop).1 (Or.inl hf)
        rw [hf] at h1 h2
        constructor
        · rw [hrec, List.cons_append, List.cons_append, List.nil_append,
            List.chain'_cons, List.chain'_cons]
          exact ⟨by decide, by decide, h1⟩
        · intro hall
          rw [hrec, List.cons_append, List.cons_append, List.nil_append,
            List.chain'_cons, List.chain'_cons]
          exact ⟨by decide, by decide,
            h2 (fun o hop => hall o (List.mem_cons_of_mem _ hop))⟩
      · have he : rec_op cfg s RecOp.stop = (s, []) := by
          simp [rec_op, stop_recording, hrec]
        rw [rec_trace_cons, he]
        obtain ⟨h1, h2⟩ := ih s hs
        exact ⟨h1, fun hall =>
          h2 (fun o hop => hall o (List.mem_cons_of_mem _ hop))⟩

/-- C5 counterexample: a failing start_recording from Idle writes Recording
and then reverts directly to Idle, a transition outside the documented
Idle → Recording → Stopping → Idle cycle, so the claim as stated is false. -/
theorem C5_counterexample :
    ¬ List.Chain' (fun a b => cycle_step a b = true)
        (RecorderState.IDLE ::
          rec_trace cfgA (recInit cfgA) [RecOp.start envFail]) := by
  intro hch
  have ht : rec_trace cfgA (recInit cfgA) [RecOp.start envFail] =
      [RecorderState.RECORDING, RecorderState.IDLE] := rfl
  rw [ht, List.chain'_cons, List.chain'_cons] at hch
  exact absurd hch.2.1 (by decide)

/-- C5 (amended): every state assignment performed by a sequence of
start/stop operations follows the cycle Idle → Recording → Stopping → Idle or
is the direct Recording → Idle revert of a failing start; when every start in
the sequence succeeds in opening its stream, all transitions lie on the
documented cycle. -/
theorem C5_theorem (cfg : AudioConfig) (ops : List RecOp) :
    List.Chain' (fun a b => allowed_step a b = true)
      (RecorderState.IDLE :: rec_trace cfg (recInit cfg) ops)
    ∧ ((∀ op ∈ ops, rec_op_ok op) →
        List.Chain' (fun a b => cycle_step a b = true)
          (RecorderState.IDLE :: rec_trace cfg (recInit cfg) ops)) :=
  rec_trace_chain cfg ops (recInit cfg) (Or.inl rfl)

/-- C5 witness: a successful start followed by a stop walks the full cycle. -/
theorem C5_witness :
    List.Chain' (fun a b => cycle_step a b = true)
      (RecorderState.IDLE ::
        rec_trace cfgA (recInit cfgA) [RecOp.start envOk, RecOp.stop]) :=
  (C5_theorem cfgA [RecOp.start envOk, RecOp.stop]).2 (by
    intro op hop
    rcases List.mem_cons.mp hop with rfl | hop
    · exact rfl
    · rcases List.mem_cons.mp hop with rfl | hop
      · exact trivial
      · cases hop)

theorem C10_witness : start_recording cfgA envOk recA = ⟨recA, true, [], []⟩ :=
  C10_theorem cfgA envOk recA rfl

lemma hk_run_cons (cfg : HotkeyConfig) (s : HKState) (e : KeyEvt)
    (l : List KeyEvt) :
    hk_run cfg s (e :: l) =
      ((hk_run cfg (hk_step cfg s e).1 l).1,
       (hk_step cfg s e).2 ++ (hk_run cfg (hk_step cfg s e).1 l).2) := rfl

lemma hk_run_append (cfg : HotkeyConfig) (s : HKState) (l1 l2 : List KeyEvt) :
    hk_run cfg s (l1 ++ l2) =
      ((hk_run cfg (hk_run cfg s l1).1 l2).1,
       (hk_run cfg s l1).2 ++ (hk_run cfg (hk_run cfg s l1).1 l2).2) := by
  induction l1 generalizing s with
  | nil => simp [hk_run]
  | cons e rest ih =>
    rw [List.cons_append, hk_run_cons, hk_run_cons, ih]
    simp [hk_run]

lemma hk_run_fix (cfg : HotkeyConfig) (s : HKState) (e : KeyEvt) (n : ℕ)
    (h : hk_step cfg s e = (s, [])) :
    hk_run cfg s (List.replicate n e) = (s, []) := by
  induction n with
  | zero => rfl
  | succ k ih =>
    rw [List.replicate_succ, hk_run_cons, h]
    simp [ih]

lemma canon_reverse {m : String} (h : m ∈ canonical_mods) :
    REVERSE_MODIFIER_MAP (mod_key m) = some m := by
  have h4 : m = "shift" ∨ m = "ctrl" ∨ m = "alt" ∨ m = "cmd" := by
    simpa [canonical_mods] using h
  rcases h4 with rfl | rfl | rfl | rfl <;> rfl

lemma canon_is_mod {cfg : HotkeyConfig} (h : cfg.primary_key ∈ canonical_mods) :
    is_primary_a_modifier cfg = true := by
  have h4 : cfg.primary_key = "shift" ∨ cfg.primary_key = "ctrl" ∨
      cfg.primary_key = "alt" ∨ cfg.primary_key = "cmd" := by
    simpa [canonical_mods] using h
  unfold is_primary_a_modifier
  rcases h4 with h1 | h1 | h1 | h1 <;> rw [h1] <;> rfl

lemma check_modifiers_match_self (cfg : HotkeyConfig) :
    check_modifiers_match cfg cfg.modifiers = true := by
  unfold check_modifiers_match
  split
  · split
    · simp_all
    · simp
  · simp

lemma check_modifiers_match_iff (cfg : HotkeyConfig) (P : Finset String)
    (h : is_primary_a_modifier cfg = false) :
    check_modifiers_match cfg P = true ↔ P = cfg.modifiers := by
  unfold check_modifiers_match
  rw [if_pos h]
  by_cases hm : cfg.modifiers = ∅
  · rw [if_pos hm]
    simp [hm]
  · rw [if_neg hm]
    simp only [Bool.and_eq_true, decide_eq_true_eq]
    constructor
    · rintro ⟨hsub, hcard⟩
      exact (Finset.eq_of_subset_of_card_le hsub (le_of_eq hcard)).symm
    · rintro rfl
      exact ⟨Finset.Subset.refl _, rfl⟩

lemma on_press_nonmod (cfg : HotkeyConfig) (s : HKState) (key : KeyInput)
    (h : is_modifier_input key = false) :
    on_press cfg s key = on_press_primary cfg s key := by
  cases key with
  | named k =>
    cases hr : REVERSE_MODIFIER_MAP k with
    | some m =>
      simp only [is_modifier_input, hr] at h
      simp at h
    | none => simp only [on_press, hr]
  | code c => rfl

lemma on_release_nonmod (cfg : HotkeyConfig) (s : HKState) (key : KeyInput)
    (h : is_modifier_input key = false) :
    on_release cfg s key = on_release_primary cfg s key := by
  cases key with
  | named k =>
    cases hr : REVERSE_MODIFIER_MAP k with
    | some m =>
      simp only [is_modifier_input, hr] at h
      simp at h
    | none => simp only [on_release, hr]
  | code c => rfl

lemma press_mod_nonprimary (cfg : HotkeyConfig) (s : HKState) (m : String)
    (hm : m ∈ canonical_mods) (hnp : is_primary_a_modifier cfg = false) :
    on_press cfg s (KeyInput.named (mod_key m)) =
      (⟨s.key_pressed, insert m s.modifiers_pressed⟩, []) := by
  simp only [on_press, canon_reverse hm, hnp]
  simp

lemma press_mods_run_nonmod (cfg : HotkeyConfig)
    (hnp : is_primary_a_modifier cfg = false) :
    ∀ (ms : List String), (∀ m ∈ ms, m ∈ canonical_mods) →
    ∀ (kp : Bool) (P : Finset String),
    hk_run cfg ⟨kp, P⟩ (press_mods ms) = (⟨kp, P ∪ ms.toFinset⟩, []) := by
  intro ms
  induction ms with
  | nil =>
    intro _ kp P
    simp [press_mods, hk_run]
  | cons m rest ih =>
    intro hc kp P
    have hm : m ∈ canonical_mods := hc m (List.mem_cons_self _ _)
    rw [press_mods, List.map_cons, hk_run_cons]
    simp only [hk_step]
    rw [press_mod_nonprimary cfg _ m hm hnp]
    rw [show press_mods rest = List.map
      (fun x => KeyEvt.press (KeyInput.named (mod_key x))) rest from rfl] at ih
    rw [ih (fun x hx => hc x (List.mem_cons_of_mem _ hx)) kp (insert m P)]
    simp [List.toFinset_cons, Finset.insert_union, Finset.union_insert]

lemma press_mods_run_modprimary (cfg : HotkeyConfig)
    (hp : is_primary_a_modifier cfg = true) :
    ∀ (ms : List String), (∀ m ∈ ms, m ∈ canonical_mods) →
    cfg.primary_key ∉ ms → ∀ (kp : Bool) (P : Finset String),
    cfg.primary_key ∉ P →
    hk_run cfg ⟨kp, P⟩ (press_mods ms) = (⟨kp, P ∪ ms.toFinset⟩, []) := by
  intro ms
  induction ms with
  | nil =>
    intro _ _ kp P _
    simp [press_mods, hk_run]
  | cons m rest ih =>
    intro hc hpm kp P hP
    have hm : m ∈ canonical_mods := hc m (List.mem_cons_self _ _)
    have hne : cfg.primary_key ≠ m := fun he => hpm (he ▸ List.mem_cons_self _ _)
    have hall : all_hotkey_modifiers_pressed cfg (insert m P) = false := by
      unfold all_hotkey_modifiers_pressed
      rw [hp]
      simp only [if_true]
      apply decide_eq_false
      intro hEq
      have hmem : cfg.primary_key ∈ insert m P := by
        rw [← hEq]
        exact Finset.mem_insert_self _ _
      rcases Finset.mem_insert.mp hmem with h1 | h1
      · exact hne h1
      · exact hP h1
    have hstep : on_press cfg ⟨kp, P⟩ (KeyInput.named (mod_key m)) =
        (⟨kp, insert m P⟩, []) := by
      simp only [on_press, canon_reverse hm, hp]
      simp [hall]
    rw [press_mods, List.map_cons, hk_run_cons]
    simp only [hk_step]
    rw [hstep]
    rw [show press_mods rest = List.map
      (fun x => KeyEvt.press (KeyInput.named (mod_key x))) rest from rfl] at ih
    rw [ih (fun x hx => hc x (List.mem_cons_of_mem _ hx))
      (fun hx => hpm (List.mem_cons_of_mem _ hx)) kp (insert m P)
      (fun hx => by
        rcases Finset.mem_insert.mp hx with h1 | h1
        · exact hne h1
        · exact hP h1)]
    simp [List.toFinset_cons, Finset.insert_union, Finset.union_insert]

lemma release_mods_run (cfg : HotkeyConfig) :
    ∀ (ms : List String), (∀ m ∈ ms, m ∈ canonical_mods) →
    ∀ (P : Finset String),
    hk_run cfg ⟨false, P⟩ (release_mods ms) = (⟨false, erase_list P ms⟩, []) := by
  intro ms
  induction ms with
  | nil =>
    intro _ P
    simp [release_mods, hk_run, erase_list]
  | cons m rest ih =>
    intro hc P
    have hm : m ∈ canonical_mods := hc m (List.mem_cons_self _ _)
    have hstep : on_release cfg ⟨false, P⟩ (KeyInput.named (mod_key m)) =
        (⟨false, P.erase m⟩, []) := by
      simp only [on_release, canon_reverse hm]
      simp
    rw [release_mods, List.map_cons, hk_run_cons]
    simp only [hk_step]
    rw [hstep]
    rw [show release_mods rest = List.map
      (fun x => KeyEvt.release (KeyInput.named (mod_key x))) rest from rfl] at ih
    rw [ih (fun x hx => hc x (List.mem_cons_of_mem _ hx)) (P.erase m)]
    simp [erase_list]

lemma erase_list_toFinset : ∀ (ms : List String), ms.Nodup →
    erase_list ms.toFinset ms = ∅
  | [], _ => rfl
  | m :: rest, h => by
    have h1 : m ∉ rest := (List.nodup_cons.mp h).1
    have h2 : rest.Nodup := (List.nodup_cons.mp h).2
    show erase_list ((m :: rest).toFinset.erase m) rest = ∅
    rw [List.toFinset_cons, Finset.erase_insert (by simpa using h1)]
    exact erase_list_toFinset rest h2

lemma press_primary_fresh_hold (cfg : HotkeyConfig) (P : Finset String)
    (pk : KeyInput) (hmode : cfg.mode = "hold")
    (hkp : key_is_primary cfg pk = true) (hni : is_modifier_input pk = false)
    (hP : P = cfg.modifiers) :
    on_press cfg ⟨false, P⟩ pk = (⟨true, P⟩, [HKEvent.start]) := by
  rw [on_press_nonmod cfg _ pk hni]
  subst hP
  unfold on_press_primary
  rw [hkp, check_modifiers_match_self]
  simp [hmode]

lemma press_primary_fresh_toggle (cfg : HotkeyConfig) (P : Finset String)
    (pk : KeyInput) (hmode : cfg.mode = "toggle")
    (hkp : key_is_primary cfg pk = true) (hni : is_modifier_input pk = false)
    (hP : P = cfg.modifiers) :
    on_press cfg ⟨false, P⟩ pk = (⟨true, P⟩, [HKEvent.toggle]) := by
  rw [on_press_nonmod cfg _ pk hni]
  subst hP
  unfold on_press_primary
  rw [hkp, check_modifiers_match_self]
  simp [hmode]

lemma press_primary_engaged (cfg : HotkeyConfig) (P : Finset String)
    (pk : KeyInput) (hkp : key_is_primary cfg pk = true)
    (hni : is_modifier_input pk = false) (hP : P = cfg.modifiers) :
    on_press cfg ⟨true, P⟩ pk = (⟨true, P⟩, []) := by
  rw [on_press_nonmod cfg _ pk hni]
  subst hP
  unfold on_press_primary
  rw [hkp, check_modifiers_match_self]
  simp

lemma release_primary_hold (cfg : HotkeyConfig) (P : Finset String)
    (pk : KeyInput) (hmode : cfg.mode = "hold")
    (hkp : key_is_primary cfg pk = true) (hni : is_modifier_input pk = false)
    (hP : P = cfg.modifiers) :
    on_release cfg ⟨true, P⟩ pk = (⟨false, P⟩, [HKEvent.stop]) := by
  rw [on_release_nonmod cfg _ pk hni]
  subst hP
  unfold on_release_primary
  rw [hkp, check_modifiers_match_self]
  simp [hmode]

lemma release_primary_toggle (cfg : HotkeyConfig) (P : Finset String)
    (pk : KeyInput) (hmode : cfg.mode = "toggle")
    (hkp : key_is_primary cfg pk = true) (hni : is_modifier_input pk = false)
    (hP : P = cfg.modifiers) :
    on_release cfg ⟨true, P⟩ pk = (⟨false, P⟩, []) := by
  rw [on_release_nonmod cfg _ pk hni]
  subst hP
  unfold on_release_primary
  rw [hkp, check_modifiers_match_self]
  simp [hmode]

lemma press_primary_mod_fresh_hold (cfg : HotkeyConfig) (ms : List String)
    (hmode : cfg.mode = "hold") (hpc : cfg.primary_key ∈ canonical_mods)
    (hmods : cfg.modifiers = ms.toFinset) :
    on_press cfg ⟨false, ms.toFinset⟩
        (KeyInput.named (mod_key cfg.primary_key)) =
      (⟨true, insert cfg.primary_key ms.toFinset⟩, [HKEvent.start]) := by
  have hp := canon_is_mod hpc
  have hall : all_hotkey_modifiers_pressed cfg
      (insert cfg.primary_key ms.toFinset) = true := by
    unfold all_hotkey_modifiers_pressed
    rw [hp]
    simp [hmods]
  have hck : check_modifiers_match cfg
      (insert cfg.primary_key ms.toFinset) = true := by
    unfold check_modifiers_match
    rw [hp]
    simp [hmods, Finset.subset_insert]
  simp only [on_press, canon_reverse hpc, hp]
  simp [hall, hck, hmode]

lemma press_primary_mod_fresh_toggle (cfg : HotkeyConfig) (ms : List String)
    (hmode : cfg.mode = "toggle") (hpc : cfg.primary_key ∈ canonical_mods)
    (hmods : cfg.modifiers = ms.toFinset) :
    on_press cfg ⟨false, ms.toFinset⟩
        (KeyInput.named (mod_key cfg.primary_key)) =
      (⟨true, insert cfg.primary_key ms.toFinset⟩, [HKEvent.toggle]) := by
  have hp := canon_is_mod hpc
  have hall : all_hotkey_modifiers_pressed cfg
      (insert cfg.primary_key ms.toFinset) = true := by
    unfold all_hotkey_modifiers_pressed
    rw [hp]
    simp [hmods]
  have hck : check_modifiers_match cfg
      (insert cfg.primary_key ms.toFinset) = true := by
    unfold check_modifiers_match
    rw [hp]
    simp [hmods, Finset.subset_insert]
  simp only [on_press, canon_reverse hpc, hp]
  simp [hall, hck, hmode]

lemma press_primary_mod_engaged (cfg : HotkeyConfig) (ms : List String)
    (hpc : cfg.primary_key ∈ canonical_mods) :
    on_press cfg ⟨true, insert cfg.primary_key ms.toFinset⟩
        (KeyInput.named (mod_key cfg.primary_key)) =
      (⟨true, insert cfg.primary_key ms.toFinset⟩, []) := by
  have hp := canon_is_mod hpc
  simp only [on_press, canon_reverse hpc, hp]
  simp [Finset.insert_idem]

lemma release_primary_mod (cfg : HotkeyConfig) (ms : List String)
    (hpc : cfg.primary_key ∈ canonical_mods)
    (hpm : cfg.primary_key ∉ ms) :
    on_release cfg ⟨true, insert cfg.primary_key ms.toFinset⟩
        (KeyInput.named (mod_key cfg.primary_key)) =
      (⟨false, ms.toFinset⟩,
       if cfg.mode = "hold" then [HKEvent.stop] else []) := by
  have hp := canon_is_mod hpc
  have herase : (insert cfg.primary_key ms.toFinset).erase cfg.primary_key =
      ms.toFinset :=
    Finset.erase_insert (by simpa using hpm)
  simp only [on_release, canon_reverse hpc, hp]
  by_cases hmd : cfg.mode = "hold" <;>
    simp [hmd, Finset.mem_insert_self, herase]

/-- C6 counterexample: the combo "meta" (accepted by HotkeyConfig.parse) is
held and released — the physical meta key arrives as the cmd key, whose
reverse lookup yields "cmd", never "meta", so the press/release of the combo
fires zero Start and zero Stop callbacks instead of exactly one each. -/
theorem C6_counterexample :
    (hk_run cfgMetaHold ⟨false, ∅⟩
      [KeyEvt.press (KeyInput.named PK.cmd),
       KeyEvt.release (KeyInput.named PK.cmd)]).2 = [] ∧
    ([] : List HKEvent).count HKEvent.start ≠ 1 := by
  decide

/-- C6 (amended): in Hold mode, for combos the manager can actually map back
from key events — modifier names among the canonical shift/ctrl/alt/cmd (the
"meta" alias reverse-maps to "cmd" and never matches) and a primary key that
is either recognised by the manager (a KEY_MAP named key or a raw character)
or itself a canonical modifier name — one physical press of the combo
(modifiers in any fixed order, then the primary key), followed by any number
of OS key-repeat press events of the held key and then its release, fires
exactly one Start and exactly one Stop; the repeats are suppressed by the
engaged flag. -/
theorem C6_theorem (cfg : HotkeyConfig) (mods : List String) (pk : KeyInput)
    (n : ℕ)
    (hmode : cfg.mode = "hold")
    (hnd : mods.Nodup)
    (hcanon : ∀ m ∈ mods, m ∈ canonical_mods)
    (hmods : cfg.modifiers = mods.toFinset)
    (hpnm : cfg.primary_key ∉ mods)
    (hpk : (is_primary_a_modifier cfg = false ∧ key_is_primary cfg pk = true ∧
             is_modifier_input pk = false)
         ∨ (cfg.primary_key ∈ canonical_mods ∧
             pk = KeyInput.named (mod_key cfg.primary_key))) :
    (hk_run cfg ⟨false, ∅⟩
      (combo_press mods pk ++ List.replicate n (KeyEvt.press pk) ++
        combo_release mods pk)).2 = [HKEvent.start, HKEvent.stop] := by
  rcases hpk with ⟨hnp, hkp, hni⟩ | ⟨hpc, rfl⟩
  · have h1 : hk_run cfg ⟨false, ∅⟩ (combo_press mods pk) =
        (⟨true, mods.toFinset⟩, [HKEvent.start]) := by
      rw [combo_press, hk_run_append,
        press_mods_run_nonmod cfg hnp mods hcanon false ∅]
      simp only [Finset.empty_union]
      rw [hk_run_cons]
      simp only [hk_step]
      rw [press_primary_fresh_hold cfg mods.toFinset pk hmode hkp hni hmods.symm]
      simp [hk_run]
    have h2 : hk_run cfg ⟨true, mods.toFinset⟩
        (List.replicate n (KeyEvt.press pk)) = (⟨true, mods.toFinset⟩, []) := by
      apply hk_run_fix
      simp only [hk_step]
      exact press_primary_engaged cfg mods.toFinset pk hkp hni hmods.symm
    have h3 : hk_run cfg ⟨true, mods.toFinset⟩ (combo_release mods pk) =
        (⟨false, ∅⟩, [HKEvent.stop]) := by
      rw [combo_release, hk_run_cons]
      simp only [hk_step]
      rw [release_primary_hold cfg mods.toFinset pk hmode hkp hni hmods.symm]
      rw [release_mods_run cfg mods hcanon mods.toFinset,
        erase_list_toFinset mods hnd]
      simp
    rw [hk_run_append, hk_run_append]
    simp [h1, h2, h3]
  · have hp := canon_is_mod hpc
    have h1 : hk_run cfg ⟨false, ∅⟩
        (combo_press mods (KeyInput.named (mod_key cfg.primary_key))) =
        (⟨true, insert cfg.primary_key mods.toFinset⟩, [HKEvent.start]) := by
      rw [combo_press, hk_run_append,
        press_mods_run_modprimary cfg hp mods hcanon hpnm false ∅
          (Finset.not_mem_empty _)]
      simp only [Finset.empty_union]
      rw [hk_run_cons]
      simp only [hk_step]
      rw [press_primary_mod_fresh_hold cfg mods hmode hpc hmods]
      simp [hk_run]
    have h2 : hk_run cfg ⟨true, insert cfg.primary_key mods.toFinset⟩
        (List.replicate n (KeyEvt.press (KeyInput.named
          (mod_key cfg.primary_key)))) =
        (⟨true, insert cfg.primary_key mods.toFinset⟩, []) := by
      apply hk_run_fix
      simp only [hk_step]
      exact press_primary_mod_engaged cfg mods hpc
    have h3 : hk_run cfg ⟨true, insert cfg.primary_key mods.toFinset⟩
        (combo_release mods (KeyInput.named (mod_key cfg.primary_key))) =
        (⟨false, ∅⟩, [HKEvent.stop]) := by
      rw [combo_release, hk_run_cons]
      simp only [hk_step]
      rw [release_primary_mod cfg mods hpc hpnm]
      rw [if_pos hmode]
      rw [release_mods_run cfg mods hcanon mods.toFinset,
        erase_list_toFinset mods hnd]
      simp
    rw [hk_run_append, hk_run_append]
    simp [h1, h2, h3]

/-- C6 witness: the default bare caps_lock hold combo with two key-repeat
presses. -/
theorem C6_witness :
    (hk_run cfgHold ⟨false, ∅⟩
      (combo_press [] (KeyInput.named PK.caps_lock) ++
        List.replicate 2 (KeyEvt.press (KeyInput.named PK.caps_lock)) ++
        combo_release [] (KeyInput.named PK.caps_lock))).2 =
      [HKEvent.start, HKEvent.stop] :=
  C6_theorem cfgHold [] (KeyInput.named PK.caps_lock) 2 rfl
    (by simp) (by simp) rfl (by simp)
    (Or.inl ⟨rfl, by decide, rfl⟩)

/-- C7 counterexample: two full press/release cycles of the toggle combo
"meta" (accepted by HotkeyConfig.parse): the physical meta key arrives as the
cmd key, whose reverse lookup yields "cmd", never "meta", so the two press
edges fire zero Toggle callbacks instead of one each. -/
theorem C7_counterexample :
    (hk_run cfgMetaToggle ⟨false, ∅⟩
      [KeyEvt.press (KeyInput.named PK.cmd),
       KeyEvt.release (KeyInput.named PK.cmd),
       KeyEvt.press (KeyInput.named PK.cmd),
       KeyEvt.release (KeyInput.named PK.cmd)]).2 = [] ∧
    ([] : List HKEvent).count HKEvent.toggle ≠ 2 := by
  decide

/-- C7 (amended): in Toggle mode, for combos the manager can actually map
back from key events — modifier names among the canonical shift/ctrl/alt/cmd
(the "meta" alias reverse-maps to "cmd" and never matches) and a primary key
that is either recognised by the manager or itself a canonical modifier
name — each physical press of the combo fires exactly one Toggle; the
release fires nothing and only clears the engaged flag (returning the
manager to its initial state), so two full press/release cycles fire exactly
one Toggle per press edge and two in total. -/
theorem C7_theorem (cfg : HotkeyConfig) (mods : List String) (pk : KeyInput)
    (hmode : cfg.mode = "toggle")
    (hnd : mods.Nodup)
    (hcanon : ∀ m ∈ mods, m ∈ canonical_mods)
    (hmods : cfg.modifiers = mods.toFinset)
    (hpnm : cfg.primary_key ∉ mods)
    (hpk : (is_primary_a_modifier cfg = false ∧ key_is_primary cfg pk = true ∧
             is_modifier_input pk = false)
         ∨ (cfg.primary_key ∈ canonical_mods ∧
             pk = KeyInput.named (mod_key cfg.primary_key))) :
    hk_run cfg ⟨false, ∅⟩ (combo_press mods pk) =
      (⟨true, combo_full cfg mods⟩, [HKEvent.toggle])
    ∧ hk_run cfg ⟨true, combo_full cfg mods⟩ (combo_release mods pk) =
      (⟨false, ∅⟩, [])
    ∧ (hk_run cfg ⟨false, ∅⟩
        (combo_press mods pk ++ combo_release mods pk ++
          combo_press mods pk ++ combo_release mods pk)).2 =
      [HKEvent.toggle, HKEvent.toggle] := by
  have hmain : hk_run cfg ⟨false, ∅⟩ (combo_press mods pk) =
        (⟨true, combo_full cfg mods⟩, [HKEvent.toggle])
      ∧ hk_run cfg ⟨true, combo_full cfg mods⟩ (combo_release mods pk) =
        (⟨false, ∅⟩, []) := by
    rcases hpk with ⟨hnp, hkp, hni⟩ | ⟨hpc, rfl⟩
    · have hfull : combo_full cfg mods = mods.toFinset := by
        unfold combo_full
        rw [hnp]
        simp
      constructor
      · rw [combo_press, hk_run_append,
          press_mods_run_nonmod cfg hnp mods hcanon false ∅]
        simp only [Finset.empty_union]
        rw [hk_run_cons]
        simp only [hk_step]
        rw [press_primary_fresh_toggle cfg mods.toFinset pk hmode hkp hni
          hmods.symm]
        simp [hk_run, hfull]
      · rw [hfull, combo_release, hk_run_cons]
        simp only [hk_step]
        rw [release_primary_toggle cfg mods.toFinset pk hmode hkp hni
          hmods.symm]
        rw [release_mods_run cfg mods hcanon mods.toFinset,
          erase_list_toFinset mods hnd]
        simp
    · have hp := canon_is_mod hpc
      have hfull : combo_full cfg mods = insert cfg.primary_key mods.toFinset := by
        unfold combo_full
        rw [hp]
        simp
      constructor
      · rw [combo_press, hk_run_append,
          press_mods_run_modprimary cfg hp mods hcanon hpnm false ∅
            (Finset.not_mem_empty _)]
        simp only [Finset.empty_union]
        rw [hk_run_cons]
        simp only [hk_step]
        rw [press_primary_mod_fresh_toggle cfg mods hmode hpc hmods]
        simp [hk_run, hfull]
      · rw [hfull, combo_release, hk_run_cons]
        simp only [hk_step]
        rw [release_primary_mod cfg mods hpc hpnm]
        rw [if_neg (by rw [hmode]; decide)]
        rw [release_mods_run cfg mods hcanon mods.toFinset,
          erase_list_toFinset mods hnd]
        simp
  obtain ⟨hpress, hrel⟩ := hmain
  refine ⟨hpress, hrel, ?_⟩
  rw [hk_run_append, hk_run_append, hk_run_append]
  simp [hpress, hrel]

/-- C7 witness: the ctrl+shift toggle combo (a modifier-only combo), two full
press/release cycles. -/
theorem C7_witness :
    hk_run cfgToggle ⟨false, ∅⟩
        (combo_press ["ctrl"] (KeyInput.named (mod_key "shift"))) =
      (⟨true, combo_full cfgToggle ["ctrl"]⟩, [HKEvent.toggle])
    ∧ hk_run cfgToggle ⟨true, combo_full cfgToggle ["ctrl"]⟩
        (combo_release ["ctrl"] (KeyInput.named (mod_key "shift"))) =
      (⟨false, ∅⟩, [])
    ∧ (hk_run cfgToggle ⟨false, ∅⟩
        (combo_press ["ctrl"] (KeyInput.named (mod_key "shift")) ++
          combo_release ["ctrl"] (KeyInput.named (mod_key "shift")) ++
          combo_press ["ctrl"] (KeyInput.named (mod_key "shift")) ++
          combo_release ["ctrl"] (KeyInput.named (mod_key "shift")))).2 =
      [HKEvent.toggle, HKEvent.toggle] :=
  C7_theorem cfgToggle ["ctrl"] (KeyInput.named (mod_key "shift")) rfl
    (by simp) (by simp [canonical_mods]) (by simp [cfgToggle]) (by decide)
    (Or.inr ⟨by simp [canonical_mods, cfgToggle], rfl⟩)

lemma KEY_MAP_not_modifier {s : String} {k : PK} (h : KEY_MAP s = some k) :
    REVERSE_MODIFIER_MAP k = none := by
  unfold KEY_MAP at h
  split at h <;>
    first
      | (injection h with h2; subst h2; rfl)
      | (cases h)

lemma primary_mod_cases (cfg : HotkeyConfig)
    (hp : is_primary_a_modifier cfg = true) :
    cfg.primary_key = "shift" ∨ cfg.primary_key = "ctrl" ∨
    cfg.primary_key = "alt" ∨ cfg.primary_key = "cmd" ∨
    cfg.primary_key = "meta" := by
  unfold is_primary_a_modifier MODIFIER_MAP at hp
  split at hp <;> simp_all

lemma get_key_primary_mod (cfg : HotkeyConfig)
    (hp : is_primary_a_modifier cfg = true) :
    get_key cfg = none := by
  rcases primary_mod_cases cfg hp with h | h | h | h | h <;>
    (unfold get_key; rw [h]; decide)

lemma primary_mod_char_ne (cfg : HotkeyConfig)
    (hp : is_primary_a_modifier cfg = true) (ch : Char) :
    (lower ⟨[ch]⟩ == lower cfg.primary_key) = false := by
  rcases primary_mod_cases cfg hp with h | h | h | h | h <;> rw [h] <;>
    · refine beq_eq_false_iff_ne.mpr (fun he => ?_)
      have hlen := congrArg (fun t => t.data.length) he
      simp [lower] at hlen

lemma key_is_primary_false_of_mod (cfg : HotkeyConfig) (key : KeyInput)
    (hp : is_primary_a_modifier cfg = true) :
    key_is_primary cfg key = false := by
  cases key with
  | named k =>
    unfold key_is_primary
    rw [get_key_primary_mod cfg hp]
    rfl
  | code c =>
    cases c with
    | none => rfl
    | some ch =>
      unfold key_is_primary
      exact primary_mod_char_ne cfg hp ch

lemma key_is_primary_named_mod_false (cfg : HotkeyConfig) {k : PK}
    {m : String} (hr : REVERSE_MODIFIER_MAP k = some m) :
    key_is_primary cfg (KeyInput.named k) = false := by
  unfold key_is_primary
  cases hg : get_key cfg with
  | none => rfl
  | some k2 =>
    by_cases hk2 : k2 = k
    · subst hk2
      unfold get_key at hg
      rw [KEY_MAP_not_modifier hg] at hr
      cases hr
    · simp [hk2]

lemma allcheck_iff (cfg : HotkeyConfig)
    (hp : is_primary_a_modifier cfg = true) (Q : Finset String) :
    (all_hotkey_modifiers_pressed cfg Q && check_modifiers_match cfg Q) = true ↔
      Q = insert cfg.primary_key cfg.modifiers := by
  unfold all_hotkey_modifiers_pressed check_modifiers_match
  rw [hp]
  simp only [if_true, if_neg (by simp : ¬(true = false)), Bool.and_eq_true,
    decide_eq_true_eq]
  constructor
  · intro hand
    exact hand.1.symm
  · rintro rfl
    exact ⟨rfl, Finset.subset_insert _ _⟩

lemma ite_singleton_ne_nil (c : Bool) (x : HKEvent) :
    ((if c = true then [x] else []) ≠ []) ↔ c = true := by
  cases c <;> simp

lemma on_press_modkey_events (cfg : HotkeyConfig) (k : PK) (m : String)
    (hr : REVERSE_MODIFIER_MAP k = some m) (P : Finset String)
    (hmode : cfg.mode = "hold") :
    (on_press cfg ⟨false, P⟩ (KeyInput.named k)).2 =
      (if (is_primary_a_modifier cfg &&
           (all_hotkey_modifiers_pressed cfg (insert m P) &&
            check_modifiers_match cfg (insert m P))) = true
       then [HKEvent.start] else []) := by
  simp only [on_press, hr]
  by_cases hp : is_primary_a_modifier cfg = true
  · simp only [hp, if_true, Bool.true_and]
    by_cases hg : (all_hotkey_modifiers_pressed cfg (insert m P) &&
        check_modifiers_match cfg (insert m P)) = true
    · simp [hg, hmode]
    · simp [hg]
  · have hp' : is_primary_a_modifier cfg = false := by simpa using hp
    simp [hp']

lemma on_press_primary_events (cfg : HotkeyConfig) (key : KeyInput)
    (P : Finset String) (hmode : cfg.mode = "hold") :
    (on_press_primary cfg ⟨false, P⟩ key).2 =
      (if (key_is_primary cfg key && check_modifiers_match cfg P) = true
       then [HKEvent.start] else []) := by
  unfold on_press_primary
  by_cases hg : (key_is_primary cfg key && check_modifiers_match cfg P) = true
  · simp [hg, hmode]
  · simp [hg]

/-- C8 counterexample: for the hold combo ctrl+shift (whose primary key is
the modifier "shift"), pressing the non-modifier key F1 while ctrl and shift
are held does not match in the code (the modifier-primary match is evaluated
only on modifier-key events), yet the specification's rule — which constrains
only the live modifier set in that case — says it matches. -/
theorem C8_counterexample :
    press_matches cfgC8 (KeyInput.named PK.f1) setC8 ≠
      spec_match_rule cfgC8 (KeyInput.named PK.f1) setC8 := by
  decide

/-- C8 (amended): a press event fires a fresh Start from a disengaged
hold-mode manager iff: when the primary key is itself a modifier name, the
event's key is a modifier key AND the live held-modifier set (after recording
the event) equals modifiers ∪ {primaryKey}; otherwise the live set equals
exactly the modifiers AND the event's key equals the primary key (named-key
lookup first, raw-character case-insensitive fallback). -/
theorem C8_theorem (cfg : HotkeyConfig) (key : KeyInput)
    (pressed : Finset String) (hmode : cfg.mode = "hold") :
    press_matches cfg key pressed = true ↔
      (if is_primary_a_modifier cfg = true then
         is_modifier_input key = true ∧
           live_after key pressed = insert cfg.primary_key cfg.modifiers
       else
         live_after key pressed = cfg.modifiers ∧
           key_is_primary cfg key = true) := by
  unfold press_matches
  simp only [decide_eq_true_eq]
  cases key with
  | named k =>
    cases hr : REVERSE_MODIFIER_MAP k with
    | some m =>
      have hlive : live_after (KeyInput.named k) pressed = insert m pressed := by
        simp [live_after, hr]
      have hmi : is_modifier_input (KeyInput.named k) = true := by
        simp [is_modifier_input, hr]
      rw [on_press_modkey_events cfg k m hr pressed hmode]
      by_cases hp : is_primary_a_modifier cfg = true
      · rw [if_pos hp, ite_singleton_ne_nil, hlive, hmi, hp]
        simp only [Bool.true_and, true_and]
        exact allcheck_iff cfg hp (insert m pressed)
      · have hp' : is_primary_a_modifier cfg = false := by simpa using hp
        rw [if_neg hp, ite_singleton_ne_nil, hlive,
          key_is_primary_named_mod_false cfg hr, hp']
        simp
    | none =>
      have hni : is_modifier_input (KeyInput.named k) = false := by
        simp [is_modifier_input, hr]
      have hlive : live_after (KeyInput.named k) pressed = pressed := by
        simp [live_after, hr]
      rw [on_press_nonmod cfg _ _ hni,
        on_press_primary_events cfg _ pressed hmode, ite_singleton_ne_nil,
        hlive]
      by_cases hp : is_primary_a_modifier cfg = true
      · rw [if_pos hp, key_is_primary_false_of_mod cfg _ hp, hni]
        simp
      · have hp' : is_primary_a_modifier cfg = false := by simpa using hp
        rw [if_neg hp]
        simp only [Bool.and_eq_true, check_modifiers_match_iff cfg pressed hp']
        tauto
  | code c =>
    have hni : is_modifier_input (KeyInput.code c) = false := rfl
    have hlive : live_after (KeyInput.code c) pressed = pressed := rfl
    rw [show on_press cfg ⟨false, pressed⟩ (KeyInput.code c) =
        on_press_primary cfg ⟨false, pressed⟩ (KeyInput.code c) from rfl,
      on_press_primary_events cfg _ pressed hmode, ite_singleton_ne_nil, hlive]
    by_cases hp : is_primary_a_modifier cfg = true
    · rw [if_pos hp, key_is_primary_false_of_mod cfg _ hp, hni]
      simp
    · have hp' : is_primary_a_modifier cfg = false := by simpa using hp
      rw [if_neg hp]
      simp only [Bool.and_eq_true, check_modifiers_match_iff cfg pressed hp']
      tauto

/-- C8 witness: pressing the shift key with ctrl already held matches the
ctrl+shift hold combo. -/
theorem C8_witness :
    press_matches cfgC8 (KeyInput.named PK.shift) {"ctrl"} = true ↔
      (if is_primary_a_modifier cfgC8 = true then
         is_modifier_input (KeyInput.named PK.shift) = true ∧
           live_after (KeyInput.named PK.shift) {"ctrl"} =
             insert cfgC8.primary_key cfgC8.modifiers
       else
         live_after (KeyInput.named PK.shift) {"ctrl"} = cfgC8.modifiers ∧
           key_is_primary cfgC8 (KeyInput.named PK.shift) = true) :=
  C8_theorem cfgC8 (KeyInput.named PK.shift) {"ctrl"} rfl

end LocalVoice
